import Mathlib

/-!
# diskache: a file-per-key cache with lazy expiration

A shallow embedding of `diskache.go`.  The cache keeps one file per key, named
by the hex SHA-256 digest of the key, plus one more entry under the reserved
key `expired-table` that holds a JSON object from keys to expiry timestamps.

Modelling decisions

* The disk is a finite-map-like function from paths to file contents, together
  with the faults the environment may inject into `os.Create`, `file.Write`
  and `os.Remove`.  `os.Create` truncates the file before anything is written,
  so a failed `file.Write` leaves the first bytes of the payload (possibly
  none) in the file.  Reading a file that exists succeeds.
* The clock reading of `getTimestamp()` is an explicit argument `now`.
* `int64` values are integers; the one addition the code performs on them is
  wrapped to 64 bits.
* `crypto/sha256`, `encoding/hex`, `path.Join` and `encoding/json` are library
  code: they are the fields of `Lib`, and the general theorems hold for every
  `Lib`.  Where a theorem needs the table that was written to be read back, it
  assumes `RoundTrips` for that one table.  Keys are Unicode strings.
* A `[]byte` is a list of bytes; a `nil` slice is the empty list.
* Locks are not modelled: operations run one at a time.
* Assigning into a `nil` map panics in Go; `Outcome.panic` records that.
-/

namespace diskache

/-- A byte slice. -/
abbrev Bytes := List UInt8

/-- A Go `error` value. -/
abbrev Error := String

/-- A `map[string]int64`, as an association list read from the front. -/
abbrev Table := List (String × Int)

/-- The lookup `table[k]` with its presence flag. -/
def tableGet (table : Table) (k : String) : Option Int :=
  match table with
  | [] => none
  | (q, t) :: rest => if q = k then some t else tableGet rest k

/-- The assignment `table[k] = t`. -/
def tablePut (table : Table) (k : String) (t : Int) : Table :=
  (k, t) :: table.filter (fun p => !(p.1 == k))

/-- The constant `expiredTimestamp`. -/
def expiredTimestamp : Int := 0

/-- The constant `expiredTableName`. -/
def expiredTableName : String := "expired-table"

/-- Two's complement wrap-around of an `int64` result. -/
def wrapInt64 (x : Int) : Int := (x + 2 ^ 63) % 2 ^ 64 - 2 ^ 63

/-- The values an `int64` can hold. -/
def inInt64 (x : Int) : Prop := -(2 ^ 63) ≤ x ∧ x < 2 ^ 63

/-- The library functions the cache calls.  `unmarshal` decodes into a
`map[string]int64` variable that starts out `nil`: `.ok none` is the `nil` map
left behind by the JSON text `null`. -/
structure Lib where
  sha256hex : String → String
  pathJoin : String → String → String
  marshal : Table → Except Error Bytes
  unmarshal : Bytes → Except Error (Option Table)

/-- The disk: file contents by path, and the faults of the environment.
`writeErr p = some (n, e)` says that a `Write` into `p` stores only the first
`n` bytes and reports `e`. -/
structure FileSystem where
  files : String → Option Bytes
  createErr : String → Option Error
  writeErr : String → Option (Nat × Error)
  removeErr : String → Option Error

/-- The file at `path` now holds `data`. -/
def FileSystem.store (fs : FileSystem) (path : String) (data : Bytes) : FileSystem :=
  { fs with files := fun p => if p = path then some data else fs.files p }

/-- The file at `path` is gone. -/
def FileSystem.erase (fs : FileSystem) (path : String) : FileSystem :=
  { fs with files := fun p => if p = path then none else fs.files p }

/-- The struct `Diskache`, without its lock group and its unused field
`expiredTime`.  `items` is a Go `int`, taken to be 64 bits wide. -/
structure Diskache where
  directory : String
  expiredTableDirectory : String
  items : Int

/-- A cache handle together with the disk it works on. -/
structure State where
  dc : Diskache
  fs : FileSystem

/-- The result of a call that may panic: it returns `r` in state `s`, or it
panics in state `s`. -/
inductive Outcome (α : Type) where
  | ret (r : α) (s : State)
  | panic (s : State)

/-- The returned value, if the call returned. -/
def Outcome.result {α : Type} : Outcome α → Option α
  | .ret r _ => some r
  | .panic _ => none

/-- The state the call leaves behind. -/
def Outcome.state {α : Type} : Outcome α → State
  | .ret _ s => s
  | .panic s => s

/-- The method `buildFilename`. -/
def buildFilename (L : Lib) (dc : Diskache) (key : String) : String :=
  L.pathJoin dc.directory (L.sha256hex key)

/-- The method `Set`: create or truncate the file, write the payload, count
the item when the write succeeded. -/
def Set (L : Lib) (s : State) (key : String) (data : Bytes) : Option Error × State :=
  let filename := buildFilename L s.dc key
  match s.fs.createErr filename with
  | some err => (some err, s)
  | none =>
    match s.fs.writeErr filename with
    | some (n, err) => (some err, { s with fs := s.fs.store filename (data.take n) })
    | none =>
      (none, { dc := { s.dc with items := wrapInt64 (s.dc.items + 1) },
               fs := s.fs.store filename data })

/-- The method `SetJson`, at the one type the cache itself uses it with. -/
def SetJson (L : Lib) (s : State) (key : String) (value : Table) : Option Error × State :=
  match L.marshal value with
  | .error err => (some err, s)
  | .ok b => Set L s key b

/-- The method `getKey`. -/
def getKey (L : Lib) (s : State) (key : String) : Bytes × Bool :=
  match s.fs.files (buildFilename L s.dc key) with
  | none => ([], false)
  | some data => (data, true)

/-- The method `getExpiredTime`.  Every branch returns a `nil` error; a table
that does not decode yields `-1`. -/
def getExpiredTime (L : Lib) (s : State) (k : String) : Int × Option Error :=
  match getKey L s expiredTableName with
  | (_, false) => (0, none)
  | (b, true) =>
    match L.unmarshal b with
    | .error _ => (-1, none)
    | .ok none => (0, none)
    | .ok (some table) =>
      match tableGet table k with
      | none => (0, none)
      | some t => (t, none)

/-- The method `setExpiredTime`. -/
def setExpiredTime (L : Lib) (s : State) (k : String) (t : Int) : Outcome (Option Error) :=
  match getKey L s expiredTableName with
  | (_, false) =>
    let r := SetJson L s expiredTableName (tablePut [] k t)
    .ret r.1 r.2
  | (b, true) =>
    match L.unmarshal b with
    | .error err => .ret (some err) s
    | .ok none => .panic s
    | .ok (some table) =>
      let r := SetJson L s expiredTableName (tablePut table k t)
      .ret r.1 r.2

/-- The method `IsExpired`, with the clock reading `now`. -/
def IsExpired (L : Lib) (s : State) (now : Int) (key : String) : Bool × Option Error :=
  match getExpiredTime L s key with
  | (_, some err) => (true, some err)
  | (expired, none) =>
    if expired = expiredTimestamp then (false, none)
    else (decide (now ≥ expired), none)

/-- The method `SetExpired`, with the clock reading `now`. -/
def SetExpired (L : Lib) (s : State) (now : Int) (key : String) (data : Bytes)
    (expired : Int) : Outcome (Option Error) :=
  match Set L s key data with
  | (some err, s1) => .ret (some err) s1
  | (none, s1) => setExpiredTime L s1 key (wrapInt64 (now + expired))

/-- The method `Get`, with the clock reading `now`. -/
def Get (L : Lib) (s : State) (now : Int) (key : String) : Outcome (Bytes × Bool) :=
  match getKey L s key with
  | (b, false) => .ret (b, false) s
  | (b, true) =>
    if (IsExpired L s now key).1 then
      match setExpiredTime L s key expiredTimestamp with
      | .ret _ s1 => .ret ([], false) s1
      | .panic s1 => .panic s1
    else .ret (b, true) s

/-- The method `Delete`. -/
def Delete (L : Lib) (s : State) (key : String) : Bool × State :=
  let filename := buildFilename L s.dc key
  match s.fs.files filename with
  | none => (true, s)
  | some _ =>
    match s.fs.removeErr filename with
    | some _ => (false, s)
    | none => (true, { s with fs := s.fs.erase filename })

/-- The table the expiration entry currently stands for: the empty table when
the entry is absent, nothing when it does not decode to a map. -/
def storedTable (L : Lib) (s : State) : Option Table :=
  match s.fs.files (buildFilename L s.dc expiredTableName) with
  | none => some []
  | some b =>
    match L.unmarshal b with
    | .ok (some table) => some table
    | _ => none

/-- The codec gives `T` back: its encoding decodes to a map with the same
entries. -/
def RoundTrips (L : Lib) (T : Table) : Prop :=
  ∃ b T', L.marshal T = .ok b ∧ L.unmarshal b = .ok (some T') ∧
    ∀ q, tableGet T' q = tableGet T q

/-! ## A concrete library instance

Used to run the model on concrete caches.  `asciiMarshal` and `asciiUnmarshal`
are `encoding/json` on the fragment of tables whose keys are printable ASCII
without characters that need escaping; outside the fragment they report an
error. -/

/-- The bytes of an ASCII string. -/
def ascii (s : String) : Bytes := s.data.map (fun c => UInt8.ofNat c.toNat)

/-- Where the decoder stands in the JSON text. -/
inductive JMode where
  | start
  | opened
  | key (acc : List Char)
  | colon (k : String)
  | value (k : String)
  | minus (k : String)
  | zero (k : String)
  | digits (k : String) (neg : Bool) (n : Nat)
  | next
  | comma
  | lit (rest : List Nat)
  | closed
  | closedNull

/-- Decoder state: position and the entries decoded so far. -/
structure JState where
  mode : JMode
  table : Table

/-- JSON white space. -/
def isSpace (c : Nat) : Bool := c == 32 || c == 9 || c == 10 || c == 13

/-- A number has ended at byte `c`: range-check it, store it (a repeated key
takes the later value) and continue after the value. -/
def endNumber (T : Table) (k : String) (neg : Bool) (n : Nat) (c : Nat) :
    Except Error JState :=
  let v : Int := if neg then -(n : Int) else (n : Int)
  if v < -(2 ^ 63) ∨ 2 ^ 63 ≤ v then .error "json: number out of range for int64"
  else if isSpace c then .ok ⟨.next, tablePut T k v⟩
  else if c = 44 then .ok ⟨.comma, tablePut T k v⟩
  else if c = 125 then .ok ⟨.closed, tablePut T k v⟩
  else .error "json: invalid character after object key:value pair"

/-- One byte of input. -/
def jstep (st : JState) (b : UInt8) : Except Error JState :=
  let c := b.toNat
  match st.mode with
  | .start =>
    if isSpace c then .ok st
    else if c = 123 then .ok ⟨.opened, st.table⟩
    else if c = 110 then .ok ⟨.lit [117, 108, 108], st.table⟩
    else .error "json: cannot decode value into map"
  | .opened =>
    if isSpace c then .ok st
    else if c = 34 then .ok ⟨.key [], st.table⟩
    else if c = 125 then .ok ⟨.closed, st.table⟩
    else .error "json: invalid character looking for beginning of object key string"
  | .key acc =>
    if c = 34 then .ok ⟨.colon (String.mk acc.reverse), st.table⟩
    else if c < 32 ∨ 127 ≤ c ∨ c = 92 then .error "json: key outside the fragment"
    else .ok ⟨.key (Char.ofNat c :: acc), st.table⟩
  | .colon k =>
    if isSpace c then .ok st
    else if c = 58 then .ok ⟨.value k, st.table⟩
    else .error "json: invalid character after object key"
  | .value k =>
    if isSpace c then .ok st
    else if c = 45 then .ok ⟨.minus k, st.table⟩
    else if c = 48 then .ok ⟨.zero k, st.table⟩
    else if 49 ≤ c ∧ c ≤ 57 then .ok ⟨.digits k false (c - 48), st.table⟩
    else .error "json: cannot decode value into int64"
  | .minus k =>
    if c = 48 then .ok ⟨.zero k, st.table⟩
    else if 49 ≤ c ∧ c ≤ 57 then .ok ⟨.digits k true (c - 48), st.table⟩
    else .error "json: invalid character in numeric literal"
  | .zero k => endNumber st.table k false 0 c
  | .digits k neg n =>
    if 48 ≤ c ∧ c ≤ 57 then .ok ⟨.digits k neg (10 * n + (c - 48)), st.table⟩
    else endNumber st.table k neg n c
  | .next =>
    if isSpace c then .ok st
    else if c = 44 then .ok ⟨.comma, st.table⟩
    else if c = 125 then .ok ⟨.closed, st.table⟩
    else .error "json: invalid character after object key:value pair"
  | .comma =>
    if isSpace c then .ok st
    else if c = 34 then .ok ⟨.key [], st.table⟩
    else .error "json: invalid character looking for beginning of object key string"
  | .lit rest =>
    match rest with
    | [] => .error "json: invalid literal"
    | x :: more =>
      if c = x then (if more = [] then .ok ⟨.closedNull, st.table⟩ else .ok ⟨.lit more, st.table⟩)
      else .error "json: invalid character in literal null"
  | .closed =>
    if isSpace c then .ok st else .error "json: invalid character after top-level value"
  | .closedNull =>
    if isSpace c then .ok st else .error "json: invalid character after top-level value"

/-- Run the decoder over the input. -/
def jrun (st : JState) : Bytes → Except Error JState
  | [] => .ok st
  | b :: rest =>
    match jstep st b with
    | .error e => .error e
    | .ok st1 => jrun st1 rest

/-- Decoding a table, see the section header. -/
def asciiUnmarshal (b : Bytes) : Except Error (Option Table) :=
  match jrun ⟨.start, []⟩ b with
  | .error e => .error e
  | .ok st =>
    match st.mode with
    | .closed => .ok (some st.table)
    | .closedNull => .ok none
    | _ => .error "unexpected end of JSON input"

/-- Keys the encoder of this section writes verbatim. -/
def plainKey (k : String) : Bool :=
  k.data.all (fun c => decide (32 ≤ c.toNat) && decide (c.toNat < 127) &&
    !(c.toNat == 34) && !(c.toNat == 92) && !(c.toNat == 60) && !(c.toNat == 62) &&
    !(c.toNat == 38))

/-- Lexicographic order on code points, the order `encoding/json` sorts
keys in. -/
def codesLess : List Char → List Char → Bool
  | [], [] => false
  | [], _ :: _ => true
  | _ :: _, [] => false
  | a :: as, b :: bs =>
    if a.toNat < b.toNat then true
    else if b.toNat < a.toNat then false
    else codesLess as bs

/-- Insert an entry into a list sorted by key, replacing an entry of the same
key. -/
def insertSorted (k : String) (t : Int) : Table → Table
  | [] => [(k, t)]
  | (q, u) :: rest =>
    if k = q then (k, t) :: rest
    else if codesLess k.data q.data then (k, t) :: (q, u) :: rest
    else (q, u) :: insertSorted k t rest

/-- The entries of a map in the order `encoding/json` writes them. -/
def sortedEntries (T : Table) : Table :=
  T.foldr (fun p acc => insertSorted p.1 p.2 acc) []

/-- The text of one entry. -/
def encodeEntry (p : String × Int) : Bytes :=
  [34] ++ ascii p.1 ++ [34, 58] ++ ascii (toString p.2)

/-- The entries separated by commas. -/
def encodeEntries : Table → Bytes
  | [] => []
  | [p] => encodeEntry p
  | p :: rest => encodeEntry p ++ [44] ++ encodeEntries rest

/-- Encoding a table, see the section header. -/
def asciiMarshal (T : Table) : Except Error Bytes :=
  if T.all (fun p => plainKey p.1) then .ok ([123] ++ encodeEntries (sortedEntries T) ++ [125])
  else .error "json: key outside the fragment"

/-- The hex SHA-256 digests of the keys used below; any other key stands for
its own digest. -/
def demoDigest (key : String) : String :=
  if key = "expired-table" then
    "d03e60c15eaa0d29728edcc63da6acb5011505b903a9b1faf0861e541913051c"
  else if key = "foo" then
    "2c26b46b68ffc68ff99b453c1d30413413422d706483bfa0f98a5e886266e7ae"
  else if key = "bar" then
    "fcde2b2edba56bf408601fb721fe9b5c338d10ee429ea04fae5511b68fbf8fb9"
  else key

/-- The library instance of this section; `path.Join` of a clean directory
name and a digest puts a slash between them. -/
def demoLib : Lib :=
  { sha256hex := demoDigest
    pathJoin := fun dir name => dir ++ "/" ++ name
    marshal := asciiMarshal
    unmarshal := asciiUnmarshal }

/-- A disk without files and without faults. -/
def emptyDisk : FileSystem :=
  { files := fun _ => none
    createErr := fun _ => none
    writeErr := fun _ => none
    removeErr := fun _ => none }

/-- The handle `New` returns for the directory `tmp`, over an empty disk. -/
def tmpCache : State :=
  { dc := { directory := "tmp", expiredTableDirectory := "tmp/expired-table.json", items := 0 }
    fs := emptyDisk }

/-! ## Concrete caches -/

/-- The path of the entry `foo` in `tmp`. -/
def fooFile : String := "tmp/2c26b46b68ffc68ff99b453c1d30413413422d706483bfa0f98a5e886266e7ae"

/-- The path of the entry `expired-table` in `tmp`. -/
def tableFile : String := "tmp/d03e60c15eaa0d29728edcc63da6acb5011505b903a9b1faf0861e541913051c"

/-- The cache after `SetExpired("foo", "old", 1)` at clock reading 1000. -/
def staleCache : State := (SetExpired demoLib tmpCache 1000 "foo" (ascii "old") 1).state

/-- The cache after `SetExpired("foo", "Hello", 500)` at clock reading 1000. -/
def ttlCache : State := (SetExpired demoLib tmpCache 1000 "foo" (ascii "Hello") 500).state

/-- A cache whose entry `foo` holds `Hello` and whose table file holds the
cut-off JSON text `{"foo":`. -/
def corruptCache : State :=
  { tmpCache with
    fs := (emptyDisk.store fooFile (ascii "Hello")).store tableFile (ascii "\x7b\"foo\":") }

/-- The path of the entry `bar` in `tmp`. -/
def barFile : String := "tmp/fcde2b2edba56bf408601fb721fe9b5c338d10ee429ea04fae5511b68fbf8fb9"

/-- The cache after `SetExpired("bar", "B", 5000)` at clock reading 1000. -/
def barCache : State := (SetExpired demoLib tmpCache 1000 "bar" (ascii "B") 5000).state

/-- A cache whose table file holds `{"expired-table":5}`: the table records
an expiry for its own reserved key. -/
def selfTableCache : State :=
  { tmpCache with fs := emptyDisk.store tableFile (ascii "\x7b\"expired-table\":5\x7d") }

/-- A cache that holds `bar` with the expiry 5000, on a disk where a write
into the table file stores nothing and reports that no space is left. -/
def fullDiskCache : State :=
  { tmpCache with
    fs :=
      { files := fun p =>
          if p = barFile then some (ascii "B")
          else if p = tableFile then some (ascii "\x7b\"bar\":5000\x7d")
          else none
        createErr := fun _ => none
        writeErr := fun p => if p = tableFile then some (0, "no space left on device") else none
        removeErr := fun _ => none } }

/-! ## Frame lemmas -/

theorem buildFilename_congr (L : Lib) (d1 d2 : Diskache) (key : String)
    (h : d1.directory = d2.directory) : buildFilename L d1 key = buildFilename L d2 key := by
  simp [buildFilename, h]

theorem Set_directory (L : Lib) (s : State) (k : String) (d : Bytes) :
    (Set L s k d).2.dc.directory = s.dc.directory := by
  unfold Set
  dsimp only
  split
  · rfl
  · split <;> rfl

theorem Set_files_other (L : Lib) (s : State) (k : String) (d : Bytes) (p : String)
    (hp : p ≠ buildFilename L s.dc k) : (Set L s k d).2.fs.files p = s.fs.files p := by
  unfold Set
  dsimp only
  split
  · rfl
  · split <;> simp [FileSystem.store, hp]

theorem Set_ok_file (L : Lib) (s : State) (k : String) (d : Bytes)
    (h : (Set L s k d).1 = none) :
    (Set L s k d).2.fs.files (buildFilename L s.dc k) = some d := by
  unfold Set at h ⊢
  dsimp only at h ⊢
  split
  · rename_i e he; simp [he] at h
  · rename_i hc
    split
    · rename_i n e hw; simp [hc, hw] at h
    · simp [FileSystem.store]

theorem getKey_congr (L : Lib) (s1 s2 : State) (key : String)
    (hd : s1.dc.directory = s2.dc.directory)
    (hf : s1.fs.files (buildFilename L s2.dc key) = s2.fs.files (buildFilename L s2.dc key)) :
    getKey L s1 key = getKey L s2 key := by
  unfold getKey
  rw [buildFilename_congr L s1.dc s2.dc key hd, hf]

theorem getExpiredTime_congr (L : Lib) (s1 s2 : State) (k : String)
    (h : getKey L s1 expiredTableName = getKey L s2 expiredTableName) :
    getExpiredTime L s1 k = getExpiredTime L s2 k := by
  unfold getExpiredTime
  rw [h]

theorem IsExpired_congr (L : Lib) (s1 s2 : State) (now : Int) (k : String)
    (h : getKey L s1 expiredTableName = getKey L s2 expiredTableName) :
    IsExpired L s1 now k = IsExpired L s2 now k := by
  unfold IsExpired
  rw [getExpiredTime_congr L s1 s2 k h]

theorem setExpiredTime_returns (L : Lib) (s : State) (now : Int) (key : String) (t : Int)
    (h : (IsExpired L s now key).1 = true) :
    ∃ r s1, setExpiredTime L s key t = .ret r s1 := by
  unfold IsExpired getExpiredTime at h
  unfold setExpiredTime
  rcases hk : getKey L s expiredTableName with ⟨b, ex⟩
  cases ex
  · exact ⟨_, _, rfl⟩
  · rw [hk] at h
    dsimp only at h ⊢
    cases hu : L.unmarshal b with
    | error e => exact ⟨_, _, rfl⟩
    | ok o =>
      cases o with
      | none => simp [hu, expiredTimestamp] at h
      | some T => exact ⟨_, _, rfl⟩

theorem Get_result (L : Lib) (s : State) (now : Int) (key : String) :
    (Get L s now key).result =
      some (if (getKey L s key).2 = true ∧ (IsExpired L s now key).1 = false
        then ((getKey L s key).1, true) else ([], false)) := by
  unfold Get
  rcases hk : getKey L s key with ⟨b, ex⟩
  cases ex
  · have : b = [] := by
      unfold getKey at hk
      split at hk <;> simp at hk
      exact hk
    simp [Outcome.result, this]
  · dsimp only
    cases he : (IsExpired L s now key).1
    · simp [Outcome.result]
    · obtain ⟨r, s1, hr⟩ := setExpiredTime_returns L s now key expiredTimestamp he
      simp [hr, Outcome.result]

/-! ## C1: round trip -/

/-- C1, as stated, fails: `foo` was stored with a TTL of 1 ms at clock reading
1000; at clock reading 2000 a plain `Set("foo", "new")` succeeds, and the
`Get("foo")` that follows reports not-found, because `Set` leaves the expiry
recorded for `foo` in place. -/
theorem C1_counterexample_stale_expiry :
    (SetExpired demoLib tmpCache 1000 "foo" (ascii "old") 1).result = some none ∧
    (Set demoLib staleCache "foo" (ascii "new")).1 = none ∧
    (Get demoLib (Set demoLib staleCache "foo" (ascii "new")).2 2000 "foo").result
      = some ([], false) := by
  decide

/-- C1, amended: if `Set(k, v)` succeeds, `k` is not stored in the file of the
expiration table, and the table does not report `k` expired at the clock
reading of the read, then the `Get(k)` that follows returns `(v, true)` and
changes nothing. -/
theorem C1_set_then_get (L : Lib) (s : State) (now : Int) (k : String) (v : Bytes)
    (hfile : buildFilename L s.dc k ≠ buildFilename L s.dc expiredTableName)
    (hset : (Set L s k v).1 = none)
    (hlive : (IsExpired L s now k).1 = false) :
    Get L (Set L s k v).2 now k = .ret (v, true) (Set L s k v).2 := by
  have hd := Set_directory L s k v
  have hk : getKey L (Set L s k v).2 k = (v, true) := by
    unfold getKey
    rw [buildFilename_congr L _ s.dc k hd, Set_ok_file L s k v hset]
  have ht : getKey L (Set L s k v).2 expiredTableName = getKey L s expiredTableName :=
    getKey_congr L _ s _ hd (Set_files_other L s k v _ (Ne.symm hfile))
  have he : (IsExpired L (Set L s k v).2 now k).1 = false := by
    rw [IsExpired_congr L _ s now k ht]; exact hlive
  unfold Get
  rw [hk]
  simp [he]

/-- C1, amended, on a fresh cache in `tmp`. -/
theorem C1_set_then_get_witness :
    Get demoLib (Set demoLib tmpCache "foo" (ascii "Hello")).2 1000 "foo"
      = .ret (ascii "Hello", true) (Set demoLib tmpCache "foo" (ascii "Hello")).2 :=
  C1_set_then_get demoLib tmpCache 1000 "foo" (ascii "Hello")
    (by decide) (by decide) (by decide)

/-! ## C4: deletion -/

/-- C4: when the file of `k` is absent or its removal does not fail,
`Delete(k)` returns `true`, and the `Get(k)` that follows reports not-found
(at any clock reading, changing nothing). -/
theorem C4_delete_then_get (L : Lib) (s : State) (k : String)
    (hrm : s.fs.files (buildFilename L s.dc k) = none ∨
      s.fs.removeErr (buildFilename L s.dc k) = none) :
    (Delete L s k).1 = true ∧
    ∀ now, Get L (Delete L s k).2 now k = .ret ([], false) (Delete L s k).2 := by
  have key : (Delete L s k).1 = true ∧
      (Delete L s k).2.dc = s.dc ∧
      (Delete L s k).2.fs.files (buildFilename L s.dc k) = none := by
    unfold Delete
    dsimp only
    cases hf : s.fs.files (buildFilename L s.dc k) with
    | none => simp [hf]
    | some b =>
      have hr : s.fs.removeErr (buildFilename L s.dc k) = none := by
        rcases hrm with h | h
        · rw [hf] at h; cases h
        · exact h
      simp [hr, FileSystem.erase]
  refine ⟨key.1, fun now => ?_⟩
  unfold Get getKey
  rw [key.2.1, key.2.2]

/-- C4 on a cache that holds `foo`: the removal does not fail, `Delete`
returns `true` and the `Get` at clock reading 1000 reports not-found. -/
theorem C4_delete_then_get_witness :
    (ttlCache.fs.files (buildFilename demoLib ttlCache.dc "foo") = none ∨
      ttlCache.fs.removeErr (buildFilename demoLib ttlCache.dc "foo") = none) ∧
    (Delete demoLib ttlCache "foo").1 = true ∧
    Get demoLib (Delete demoLib ttlCache "foo").2 1000 "foo"
      = .ret ([], false) (Delete demoLib ttlCache "foo").2 :=
  ⟨Or.inr (by decide),
   (C4_delete_then_get demoLib ttlCache "foo" (Or.inr (by decide))).1,
   (C4_delete_then_get demoLib ttlCache "foo" (Or.inr (by decide))).2 1000⟩

/-! ## C5: a plain `Set` and the expiry of its key -/

/-- C5, as stated, fails: `foo` was stored with a TTL of 1 ms at clock reading
1000; after the successful plain `Set("foo", "new")`, `IsExpired("foo")` is
`true` at clock reading 2000. -/
theorem C5_counterexample_stale_expiry :
    (SetExpired demoLib tmpCache 1000 "foo" (ascii "old") 1).result = some none ∧
    (Set demoLib staleCache "foo" (ascii "new")).1 = none ∧
    IsExpired demoLib (Set demoLib staleCache "foo" (ascii "new")).2 2000 "foo"
      = (true, none) := by
  decide

/-- C5, amended: a plain `Set(k, v)` on a key that is not stored in the file
of the expiration table leaves the answer of `IsExpired(k)` as it was, at
every clock reading; so when the table recorded no expiry for `k` before the
`Set` (`getExpiredTime(k)` is 0), `IsExpired(k)` is `false` at every clock
reading after it. -/
theorem C5_plain_set_keeps_expiry (L : Lib) (s : State) (k : String) (v : Bytes)
    (hfile : buildFilename L s.dc k ≠ buildFilename L s.dc expiredTableName) :
    (∀ now, IsExpired L (Set L s k v).2 now k = IsExpired L s now k) ∧
    (getExpiredTime L s k = (0, none) →
      ∀ now, IsExpired L (Set L s k v).2 now k = (false, none)) := by
  have ht : getKey L (Set L s k v).2 expiredTableName = getKey L s expiredTableName :=
    getKey_congr L _ s _ (Set_directory L s k v)
      (Set_files_other L s k v _ (Ne.symm hfile))
  refine ⟨fun now => IsExpired_congr L _ s now k ht, fun h0 now => ?_⟩
  rw [IsExpired_congr L _ s now k ht]
  unfold IsExpired
  rw [h0]
  simp [expiredTimestamp]

/-- C5, amended, on a fresh cache in `tmp`, read at clock reading 2000. -/
theorem C5_plain_set_keeps_expiry_witness :
    buildFilename demoLib tmpCache.dc "foo" ≠ buildFilename demoLib tmpCache.dc expiredTableName ∧
    IsExpired demoLib (Set demoLib tmpCache "foo" (ascii "Hello")).2 2000 "foo"
      = (false, none) :=
  ⟨by decide,
   (C5_plain_set_keeps_expiry demoLib tmpCache "foo" (ascii "Hello") (by decide)).2
     (by decide) 2000⟩

/-! ## C7: a table that does not decode -/

/-- C7, as stated, fails: with the cut-off table text `{"foo":` on disk,
`getExpiredTime("foo")` is `(-1, nil)`, not the `(0, nil)` of a cache without
table; `IsExpired("foo")` is `(true, nil)`, and `Get("foo")` reports not-found
although the entry holds `Hello`. -/
theorem C7_counterexample_cut_off_table :
    getKey demoLib corruptCache "foo" = (ascii "Hello", true) ∧
    getExpiredTime demoLib tmpCache "foo" = (0, none) ∧
    getExpiredTime demoLib corruptCache "foo" = (-1, none) ∧
    IsExpired demoLib corruptCache 1000 "foo" = (true, none) ∧
    (Get demoLib corruptCache 1000 "foo").result = some ([], false) := by
  decide

/-- C7, amended: when the table entry exists but does not decode,
`getExpiredTime(k)` returns `(-1, nil)` and `IsExpired(k)` returns
`(now >= -1, nil)`, which is `(true, nil)` at every clock reading from the
epoch on; a `Get(k)` of a present key then reports not-found and leaves the
cache as it was. -/
theorem C7_undecodable_table_reads_expired (L : Lib) (s : State) (now : Int)
    (k : String) (b : Bytes) (e : Error)
    (htab : s.fs.files (buildFilename L s.dc expiredTableName) = some b)
    (hdec : L.unmarshal b = .error e) :
    getExpiredTime L s k = (-1, none) ∧
    IsExpired L s now k = (decide (now ≥ -1), none) ∧
    (0 ≤ now → IsExpired L s now k = (true, none)) ∧
    (0 ≤ now → (getKey L s k).2 = true → Get L s now k = .ret ([], false) s) := by
  have hk : getKey L s expiredTableName = (b, true) := by
    unfold getKey; rw [htab]
  have hg : getExpiredTime L s k = (-1, none) := by
    unfold getExpiredTime; rw [hk]; simp [hdec]
  have hi : IsExpired L s now k = (decide (now ≥ -1), none) := by
    unfold IsExpired; rw [hg]; simp [expiredTimestamp]
  have hpos : 0 ≤ now → IsExpired L s now k = (true, none) := by
    intro h
    rw [hi]
    have : now ≥ -1 := by omega
    simp [this]
  refine ⟨hg, hi, hpos, fun h hex => ?_⟩
  have hs : setExpiredTime L s k expiredTimestamp = .ret (some e) s := by
    unfold setExpiredTime; rw [hk]; simp [hdec]
  unfold Get
  rcases hkk : getKey L s k with ⟨d, ex⟩
  rw [hkk] at hex
  dsimp only at hex
  subst hex
  simp [hpos h, hs]

/-- C7, amended, on the cache with the cut-off table text. -/
theorem C7_undecodable_table_reads_expired_witness :
    getExpiredTime demoLib corruptCache "foo" = (-1, none) ∧
    IsExpired demoLib corruptCache 1000 "foo" = (true, none) ∧
    Get demoLib corruptCache 1000 "foo" = .ret ([], false) corruptCache :=
  have h := C7_undecodable_table_reads_expired demoLib corruptCache 1000 "foo"
    (ascii "\x7b\"foo\":") "unexpected end of JSON input" (by decide) rfl
  ⟨h.1, h.2.2.1 (by decide), h.2.2.2 (by decide) (by decide)⟩

/-! ## C8: `Delete` and the expiration table -/

/-- C8, as stated, fails: `foo` carries the expiry 1500; `Delete` of the key
`expired-table` returns `true` and removes the table entry itself, after which
`getExpiredTime("foo")` is 0. -/
theorem C8_counterexample_delete_table_key :
    getExpiredTime demoLib ttlCache "foo" = (1500, none) ∧
    (Delete demoLib ttlCache "expired-table").1 = true ∧
    getExpiredTime demoLib (Delete demoLib ttlCache "expired-table").2 "foo" = (0, none) := by
  decide

/-- C8, amended: `Delete(k)` of a key that is not stored in the file of the
expiration table leaves the table file as it was, so `getExpiredTime(q)`
returns the same value after it as before, for every key `q`, `k` included. -/
theorem C8_delete_keeps_table (L : Lib) (s : State) (k : String)
    (hfile : buildFilename L s.dc k ≠ buildFilename L s.dc expiredTableName) :
    (Delete L s k).2.fs.files (buildFilename L s.dc expiredTableName)
      = s.fs.files (buildFilename L s.dc expiredTableName) ∧
    ∀ q, getExpiredTime L (Delete L s k).2 q = getExpiredTime L s q := by
  have key : (Delete L s k).2.dc = s.dc ∧
      (Delete L s k).2.fs.files (buildFilename L s.dc expiredTableName)
        = s.fs.files (buildFilename L s.dc expiredTableName) := by
    unfold Delete
    dsimp only
    split
    · exact ⟨rfl, rfl⟩
    · split
      · exact ⟨rfl, rfl⟩
      · simp [FileSystem.erase, Ne.symm hfile]
  refine ⟨key.2, fun q => getExpiredTime_congr L _ s q ?_⟩
  exact getKey_congr L _ s _ (by rw [key.1]) key.2

/-- C8, amended, on the cache where `foo` carries the expiry 1500. -/
theorem C8_delete_keeps_table_witness :
    buildFilename demoLib ttlCache.dc "foo" ≠ buildFilename demoLib ttlCache.dc expiredTableName ∧
    getExpiredTime demoLib (Delete demoLib ttlCache "foo").2 "foo" = (1500, none) :=
  ⟨by decide,
   ((C8_delete_keeps_table demoLib ttlCache "foo" (by decide)).2 "foo").trans (by decide)⟩

/-! ## The expiration table -/

theorem tableGet_filter_ne (T : Table) (k q : String) (h : q ≠ k) :
    tableGet (T.filter (fun p => !(p.1 == k))) q = tableGet T q := by
  induction T with
  | nil => rfl
  | cons p rest ih =>
    obtain ⟨a, u⟩ := p
    by_cases hak : a = k
    · subst hak
      have hq : ¬ (a = q) := fun h' => h h'.symm
      simp [List.filter, tableGet, hq, ih]
    · have hb : (a == k) = false := by simp [hak]
      simp [List.filter, hb, tableGet, ih]

theorem tableGet_tablePut (T : Table) (k : String) (t : Int) (q : String) :
    tableGet (tablePut T k t) q = if q = k then some t else tableGet T q := by
  unfold tablePut
  by_cases h : q = k
  · subst h; simp [tableGet]
  · have hk : ¬ (k = q) := fun h' => h h'.symm
    simp [tableGet, h, hk, tableGet_filter_ne T k q h]

theorem getExpiredTime_of_stored (L : Lib) (s : State) (T : Table) (q : String)
    (hT : storedTable L s = some T) :
    getExpiredTime L s q = ((tableGet T q).getD 0, none) := by
  unfold storedTable at hT
  unfold getExpiredTime getKey
  cases hf : s.fs.files (buildFilename L s.dc expiredTableName) with
  | none =>
    rw [hf] at hT
    simp at hT
    subst hT
    simp [tableGet]
  | some b =>
    rw [hf] at hT
    dsimp only at hT ⊢
    cases hu : L.unmarshal b with
    | error e => simp [hu] at hT
    | ok o =>
      cases o with
      | none => simp [hu] at hT
      | some T0 =>
        simp [hu] at hT
        subst hT
        cases hg : tableGet T0 q <;> simp [hg]

theorem setExpiredTime_of_stored (L : Lib) (s : State) (T : Table) (k : String) (t : Int)
    (hT : storedTable L s = some T) :
    setExpiredTime L s k t =
      .ret (SetJson L s expiredTableName (tablePut T k t)).1
        (SetJson L s expiredTableName (tablePut T k t)).2 := by
  unfold storedTable at hT
  unfold setExpiredTime getKey
  cases hf : s.fs.files (buildFilename L s.dc expiredTableName) with
  | none =>
    rw [hf] at hT
    simp at hT
    subst hT
    rfl
  | some b =>
    rw [hf] at hT
    dsimp only at hT ⊢
    cases hu : L.unmarshal b with
    | error e => simp [hu] at hT
    | ok o =>
      cases o with
      | none => simp [hu] at hT
      | some T0 =>
        simp [hu] at hT
        subst hT
        rfl

theorem setExpiredTime_of_not_stored (L : Lib) (s : State) (k : String) (t : Int)
    (hT : storedTable L s = none) :
    (setExpiredTime L s k t).state = s ∧ (setExpiredTime L s k t).result ≠ some none := by
  unfold storedTable at hT
  unfold setExpiredTime getKey
  cases hf : s.fs.files (buildFilename L s.dc expiredTableName) with
  | none => rw [hf] at hT; simp at hT
  | some b =>
    rw [hf] at hT
    dsimp only at hT ⊢
    cases hu : L.unmarshal b with
    | error e => simp [Outcome.state, Outcome.result]
    | ok o =>
      cases o with
      | none => simp [Outcome.state, Outcome.result]
      | some T0 => simp [hu] at hT

theorem storedTable_congr (L : Lib) (s1 s2 : State)
    (hd : s1.dc.directory = s2.dc.directory)
    (hf : s1.fs.files (buildFilename L s2.dc expiredTableName)
      = s2.fs.files (buildFilename L s2.dc expiredTableName)) :
    storedTable L s1 = storedTable L s2 := by
  unfold storedTable
  rw [buildFilename_congr L s1.dc s2.dc _ hd, hf]

theorem Set_faults (L : Lib) (s : State) (k : String) (d : Bytes) :
    (Set L s k d).2.fs.createErr = s.fs.createErr ∧
    (Set L s k d).2.fs.writeErr = s.fs.writeErr ∧
    (Set L s k d).2.fs.removeErr = s.fs.removeErr := by
  unfold Set
  dsimp only
  split
  · exact ⟨rfl, rfl, rfl⟩
  · split <;> exact ⟨rfl, rfl, rfl⟩

theorem Set_failed_state (L : Lib) (s : State) (k : String) (d : Bytes)
    (hw : s.fs.writeErr (buildFilename L s.dc k) = none)
    (h : (Set L s k d).1 ≠ none) : (Set L s k d).2 = s := by
  unfold Set at h ⊢
  dsimp only at h ⊢
  split
  · rfl
  · rename_i hc
    simp [hc, hw] at h

/-- A successful table update: what the state looks like afterwards. -/
theorem setExpiredTime_ok (L : Lib) (s : State) (T : Table) (k : String) (t : Int)
    (hT : storedTable L s = some T) (hrt : RoundTrips L (tablePut T k t))
    (hres : (setExpiredTime L s k t).result = some none) :
    (setExpiredTime L s k t).state.dc.directory = s.dc.directory ∧
    (∀ p, p ≠ buildFilename L s.dc expiredTableName →
      (setExpiredTime L s k t).state.fs.files p = s.fs.files p) ∧
    ∃ T', storedTable L (setExpiredTime L s k t).state = some T' ∧
      ∀ q, tableGet T' q = if q = k then some t else tableGet T q := by
  obtain ⟨b, T', hm, hu, hq⟩ := hrt
  rw [setExpiredTime_of_stored L s T k t hT] at hres ⊢
  have hj : SetJson L s expiredTableName (tablePut T k t) = Set L s expiredTableName b := by
    unfold SetJson; rw [hm]
  rw [hj] at hres ⊢
  simp only [Outcome.result, Outcome.state, Option.some.injEq] at hres ⊢
  refine ⟨Set_directory L s _ b, fun p hp => Set_files_other L s _ b p hp, T', ?_, ?_⟩
  · unfold storedTable
    rw [buildFilename_congr L _ s.dc _ (Set_directory L s _ b), Set_ok_file L s _ b hres]
    simp [hu]
  · intro q
    rw [hq q, tableGet_tablePut]

theorem wrapInt64_of_inInt64 (x : Int) (h : inInt64 x) : wrapInt64 x = x := by
  unfold inInt64 at h
  unfold wrapInt64
  omega

theorem SetExpired_ok_set (L : Lib) (s : State) (now : Int) (k : String) (v : Bytes)
    (ttl : Int) (hok : (SetExpired L s now k v ttl).result = some none) :
    (Set L s k v).1 = none := by
  unfold SetExpired at hok
  rcases hs : Set L s k v with ⟨r, s1⟩
  cases r with
  | none => rfl
  | some e => rw [hs] at hok; simp [Outcome.result] at hok

theorem SetExpired_of_set_ok (L : Lib) (s : State) (now : Int) (k : String) (v : Bytes)
    (ttl : Int) (hset : (Set L s k v).1 = none) :
    SetExpired L s now k v ttl
      = setExpiredTime L (Set L s k v).2 k (wrapInt64 (now + ttl)) := by
  unfold SetExpired
  rcases hs : Set L s k v with ⟨r, s1⟩
  rw [hs] at hset
  dsimp only at hset
  subst hset
  rfl

/-! ## C2: a fresh entry with a TTL -/

/-- C2, as stated, fails: on a fresh cache at clock reading 1000,
`SetExpired("foo", "Hello", 0)` succeeds and records the expiry 1000; the
`Get("foo")` issued at the same clock reading finds `1000 >= 1000` and reports
not-found. -/
theorem C2_counterexample_zero_ttl :
    (SetExpired demoLib tmpCache 1000 "foo" (ascii "Hello") 0).result = some none ∧
    (Get demoLib (SetExpired demoLib tmpCache 1000 "foo" (ascii "Hello") 0).state
      1000 "foo").result = some ([], false) := by
  decide

/-- C2, amended: for a key that is not stored in the file of the expiration
table and a TTL `ttl > 0` whose expiry `now + ttl` does not overflow `int64`,
if `SetExpired(k, v, ttl)` succeeds at clock reading `now`, then `Get(k)` at
the same clock reading returns `(v, true)` and changes nothing.  (`T` is the
table stored before the call; the JSON codec is assumed to give the updated
table back.) -/
theorem C2_fresh_ttl_entry_readable (L : Lib) (s : State) (now : Int) (k : String)
    (v : Bytes) (ttl : Int) (T : Table)
    (hfile : buildFilename L s.dc k ≠ buildFilename L s.dc expiredTableName)
    (hT : storedTable L s = some T)
    (hrt : RoundTrips L (tablePut T k (wrapInt64 (now + ttl))))
    (hok : (SetExpired L s now k v ttl).result = some none)
    (hnow : 0 ≤ now) (httl : 0 < ttl) (hsum : now + ttl < 2 ^ 63) :
    Get L (SetExpired L s now k v ttl).state now k
      = .ret (v, true) (SetExpired L s now k v ttl).state := by
  have hset := SetExpired_ok_set L s now k v ttl hok
  have hse := SetExpired_of_set_ok L s now k v ttl hset
  rw [hse] at hok ⊢
  have hd1 := Set_directory L s k v
  have hT1 : storedTable L (Set L s k v).2 = some T := by
    rw [storedTable_congr L _ s hd1 (Set_files_other L s k v _ (Ne.symm hfile))]
    exact hT
  obtain ⟨hd2, hf2, T', hT2, hq⟩ :=
    setExpiredTime_ok L (Set L s k v).2 T k (wrapInt64 (now + ttl)) hT1 hrt hok
  have hw : wrapInt64 (now + ttl) = now + ttl :=
    wrapInt64_of_inInt64 _ ⟨by omega, hsum⟩
  have hk : getKey L (setExpiredTime L (Set L s k v).2 k (wrapInt64 (now + ttl))).state k
      = (v, true) := by
    unfold getKey
    rw [buildFilename_congr L _ s.dc k (hd2.trans hd1), hf2, Set_ok_file L s k v hset]
    rw [buildFilename_congr L _ s.dc _ hd1]
    exact hfile
  have hg := getExpiredTime_of_stored L _ T' k hT2
  rw [hq k] at hg
  simp only [if_true, Option.getD_some] at hg
  have he : (IsExpired L (setExpiredTime L (Set L s k v).2 k (wrapInt64 (now + ttl))).state
      now k).1 = false := by
    unfold IsExpired
    rw [hg, hw]
    have h1 : ¬ (now + ttl = expiredTimestamp) := by unfold expiredTimestamp; omega
    have h2 : ¬ (now ≥ now + ttl) := by omega
    simp [h1, h2]
  unfold Get
  rw [hk]
  simp [he]

/-- C2, amended, on a fresh cache in `tmp`: a TTL of 500 ms at clock reading
1000. -/
theorem C2_fresh_ttl_entry_readable_witness :
    (SetExpired demoLib tmpCache 1000 "foo" (ascii "Hello") 500).result = some none ∧
    Get demoLib (SetExpired demoLib tmpCache 1000 "foo" (ascii "Hello") 500).state 1000 "foo"
      = .ret (ascii "Hello", true)
          (SetExpired demoLib tmpCache 1000 "foo" (ascii "Hello") 500).state :=
  ⟨by decide,
   C2_fresh_ttl_entry_readable demoLib tmpCache 1000 "foo" (ascii "Hello") 500 []
     (by decide) rfl ⟨_, _, rfl, rfl, fun _ => rfl⟩ (by decide) (by decide) (by decide)
     (by norm_num)⟩

/-! ## C3: expiry once the TTL has passed -/

/-- C3, as stated, fails: at clock reading 1000, `SetExpired("foo", "Hello",
-1000)` succeeds and records the expiry `1000 + (-1000) = 0`, the mark for
"never expires"; at clock reading 2000, past the expiry, `IsExpired("foo")` is
`false` and `Get("foo")` returns `("Hello", true)`. -/
theorem C3_counterexample_expiry_zero :
    (SetExpired demoLib tmpCache 1000 "foo" (ascii "Hello") (-1000)).result = some none ∧
    IsExpired demoLib (SetExpired demoLib tmpCache 1000 "foo" (ascii "Hello") (-1000)).state
      2000 "foo" = (false, none) ∧
    (Get demoLib (SetExpired demoLib tmpCache 1000 "foo" (ascii "Hello") (-1000)).state
      2000 "foo").result = some (ascii "Hello", true) := by
  decide

/-- C3, amended: if `SetExpired(k, v, ttl)` succeeds at clock reading
`t0 >= 0` and `t0 + ttl` is not 0, then at every clock reading
`t >= t0 + ttl`, in the state the call left, `IsExpired(k)` returns
`(true, nil)` and `Get(k)` returns not-found.  (`ttl` and `t` are `int64`
values; `T` is the table found after the data write; the JSON codec is assumed
to give the updated table back.) -/
theorem C3_expired_after_ttl (L : Lib) (s : State) (t0 : Int) (k : String)
    (v : Bytes) (ttl : Int) (T : Table) (t : Int)
    (hT : storedTable L (Set L s k v).2 = some T)
    (hrt : RoundTrips L (tablePut T k (wrapInt64 (t0 + ttl))))
    (hok : (SetExpired L s t0 k v ttl).result = some none)
    (h0 : 0 ≤ t0) (httl : inInt64 ttl) (ht : inInt64 t)
    (hne : t0 + ttl ≠ 0) (hle : t0 + ttl ≤ t) :
    IsExpired L (SetExpired L s t0 k v ttl).state t k = (true, none) ∧
    (Get L (SetExpired L s t0 k v ttl).state t k).result = some ([], false) := by
  have hset := SetExpired_ok_set L s t0 k v ttl hok
  have hse := SetExpired_of_set_ok L s t0 k v ttl hset
  rw [hse] at hok ⊢
  obtain ⟨-, -, T', hT2, hq⟩ :=
    setExpiredTime_ok L (Set L s k v).2 T k (wrapInt64 (t0 + ttl)) hT hrt hok
  have hw : wrapInt64 (t0 + ttl) = t0 + ttl := by
    apply wrapInt64_of_inInt64
    unfold inInt64 at httl ht ⊢
    omega
  have hg := getExpiredTime_of_stored L _ T' k hT2
  rw [hq k] at hg
  simp only [if_true, Option.getD_some] at hg
  have he : IsExpired L (setExpiredTime L (Set L s k v).2 k (wrapInt64 (t0 + ttl))).state
      t k = (true, none) := by
    unfold IsExpired
    rw [hg, hw]
    have h1 : ¬ (t0 + ttl = expiredTimestamp) := by unfold expiredTimestamp; omega
    have h2 : t ≥ t0 + ttl := hle
    simp [h1, h2]
  refine ⟨he, ?_⟩
  rw [Get_result, he]
  simp

/-- C3, amended, on a fresh cache in `tmp`: a TTL of 500 ms set at clock
reading 1000, read at clock reading 1500. -/
theorem C3_expired_after_ttl_witness :
    (SetExpired demoLib tmpCache 1000 "foo" (ascii "Hello") 500).result = some none ∧
    IsExpired demoLib (SetExpired demoLib tmpCache 1000 "foo" (ascii "Hello") 500).state
      1500 "foo" = (true, none) ∧
    (Get demoLib (SetExpired demoLib tmpCache 1000 "foo" (ascii "Hello") 500).state
      1500 "foo").result = some ([], false) :=
  ⟨by decide,
   C3_expired_after_ttl demoLib tmpCache 1000 "foo" (ascii "Hello") 500 [] 1500
     rfl ⟨_, _, rfl, rfl, fun _ => rfl⟩ (by decide) (by decide)
     (by norm_num [inInt64]) (by norm_num [inInt64]) (by decide) (by decide)⟩

theorem Set_ok_of_no_fault (L : Lib) (s : State) (k : String) (d : Bytes)
    (hc : s.fs.createErr (buildFilename L s.dc k) = none)
    (hw : s.fs.writeErr (buildFilename L s.dc k) = none) : (Set L s k d).1 = none := by
  unfold Set
  simp [hc, hw]

theorem Outcome.eq_ret {α : Type} (o : Outcome α) (r : α) (h : o.result = some r) :
    o = .ret r o.state := by
  cases o with
  | ret r0 s0 => simp [Outcome.result] at h; subst h; rfl
  | panic s0 => simp [Outcome.result] at h

theorem SetJson_failed_state (L : Lib) (s : State) (key : String) (T : Table)
    (hw : s.fs.writeErr (buildFilename L s.dc key) = none)
    (h : (SetJson L s key T).1 ≠ none) : (SetJson L s key T).2 = s := by
  unfold SetJson at h ⊢
  cases hm : L.marshal T with
  | error e => rfl
  | ok b =>
    rw [hm] at h
    exact Set_failed_state L s key b hw h

/-- A table update that reports an error without a failed write leaves the
state as it was. -/
theorem setExpiredTime_failed_state (L : Lib) (s : State) (k : String) (t : Int)
    (hw : s.fs.writeErr (buildFilename L s.dc expiredTableName) = none)
    (h : (setExpiredTime L s k t).result ≠ some none) :
    (setExpiredTime L s k t).state = s := by
  cases hT : storedTable L s with
  | none => exact (setExpiredTime_of_not_stored L s k t hT).1
  | some T =>
    rw [setExpiredTime_of_stored L s T k t hT] at h ⊢
    simp only [Outcome.result, Outcome.state] at h ⊢
    apply SetJson_failed_state L s _ _ hw
    intro hn
    exact h (by rw [hn])

/-! ## C6: lazy reset -/

/-- C6, as stated, fails: the table file holds `{"expired-table":5}`, so the
key `expired-table` has this text as its data and the non-zero expiry 5; at
clock reading 10 the first `Get("expired-table")` reports not-found and
rewrites that very file to `{"expired-table":0}`, and the second `Get` returns
the rewritten text, not the text the entry held. -/
theorem C6_counterexample_reserved_key :
    getKey demoLib selfTableCache "expired-table"
      = (ascii "\x7b\"expired-table\":5\x7d", true) ∧
    getExpiredTime demoLib selfTableCache "expired-table" = (5, none) ∧
    (Get demoLib selfTableCache 10 "expired-table").result = some ([], false) ∧
    (Get demoLib selfTableCache 10 "expired-table").state.fs.files tableFile
      = some (ascii "\x7b\"expired-table\":0\x7d") ∧
    (Get demoLib (Get demoLib selfTableCache 10 "expired-table").state 10
      "expired-table").result = some (ascii "\x7b\"expired-table\":0\x7d", true) := by
  decide

/-- C6, amended: let `k` be a key that is not stored in the file of the
expiration table, whose data file holds `v`, and for which the stored table
`T` records a timestamp `t` that is non-zero and `<= now`; let the table file
be writable (neither `os.Create` nor `Write` fails on it) and the JSON codec
give the updated table back.  Then the first `Get(k)` reports not-found,
leaves the data file of `k` holding `v` and sets the timestamp of `k` to 0
(`getExpiredTime(k)` is 0), and a second `Get(k)` at the same clock reading
returns `(v, true)`. -/
theorem C6_lazy_reset_then_found (L : Lib) (s : State) (now : Int) (k : String)
    (v : Bytes) (T : Table) (t : Int)
    (hfile : buildFilename L s.dc k ≠ buildFilename L s.dc expiredTableName)
    (hv : s.fs.files (buildFilename L s.dc k) = some v)
    (hT : storedTable L s = some T) (hent : tableGet T k = some t)
    (hnz : t ≠ 0) (hdue : t ≤ now)
    (hc : s.fs.createErr (buildFilename L s.dc expiredTableName) = none)
    (hw : s.fs.writeErr (buildFilename L s.dc expiredTableName) = none)
    (hrt : RoundTrips L (tablePut T k 0)) :
    (Get L s now k).result = some ([], false) ∧
    (Get L s now k).state.fs.files (buildFilename L s.dc k) = some v ∧
    getExpiredTime L (Get L s now k).state k = (0, none) ∧
    Get L (Get L s now k).state now k = .ret (v, true) (Get L s now k).state := by
  have hk : getKey L s k = (v, true) := by unfold getKey; rw [hv]
  have hg : getExpiredTime L s k = (t, none) := by
    rw [getExpiredTime_of_stored L s T k hT, hent]; rfl
  have he : (IsExpired L s now k).1 = true := by
    unfold IsExpired
    rw [hg]
    have h2 : now ≥ t := hdue
    simp [expiredTimestamp, hnz, h2]
  have hres : (setExpiredTime L s k expiredTimestamp).result = some none := by
    rw [setExpiredTime_of_stored L s T k _ hT]
    obtain ⟨b, T', hm, -, -⟩ := hrt
    have hj : SetJson L s expiredTableName (tablePut T k expiredTimestamp)
        = Set L s expiredTableName b := by
      unfold SetJson expiredTimestamp; rw [hm]
    rw [hj]
    simp only [Outcome.result]
    rw [Set_ok_of_no_fault L s _ b hc hw]
  have hget : Get L s now k = .ret ([], false) (setExpiredTime L s k expiredTimestamp).state := by
    unfold Get
    rw [hk]
    simp only [he, if_true]
    rw [Outcome.eq_ret _ _ hres]
    rfl
  obtain ⟨hd2, hf2, T', hT2, hq⟩ := setExpiredTime_ok L s T k expiredTimestamp hT hrt hres
  have hstate : (Get L s now k).state = (setExpiredTime L s k expiredTimestamp).state := by
    rw [hget]; rfl
  rw [hstate]
  have hv2 : (setExpiredTime L s k expiredTimestamp).state.fs.files (buildFilename L s.dc k)
      = some v := by rw [hf2 _ hfile, hv]
  have hg2 : getExpiredTime L (setExpiredTime L s k expiredTimestamp).state k = (0, none) := by
    rw [getExpiredTime_of_stored L _ T' k hT2, hq k]
    simp [expiredTimestamp]
  refine ⟨by rw [hget]; rfl, hv2, hg2, ?_⟩
  have hk2 : getKey L (setExpiredTime L s k expiredTimestamp).state k = (v, true) := by
    unfold getKey
    rw [buildFilename_congr L _ s.dc k hd2, hv2]
  have he2 : (IsExpired L (setExpiredTime L s k expiredTimestamp).state now k).1 = false := by
    unfold IsExpired
    rw [hg2]
    simp [expiredTimestamp]
  unfold Get
  rw [hk2]
  simp [he2]

/-- C6, amended, on the cache where `foo` carries the expiry 1001, read at
clock reading 2000. -/
theorem C6_lazy_reset_then_found_witness :
    (Get demoLib staleCache 2000 "foo").result = some ([], false) ∧
    (Get demoLib staleCache 2000 "foo").state.fs.files
      (buildFilename demoLib staleCache.dc "foo") = some (ascii "old") ∧
    getExpiredTime demoLib (Get demoLib staleCache 2000 "foo").state "foo" = (0, none) ∧
    Get demoLib (Get demoLib staleCache 2000 "foo").state 2000 "foo"
      = .ret (ascii "old", true) (Get demoLib staleCache 2000 "foo").state :=
  C6_lazy_reset_then_found demoLib staleCache 2000 "foo" (ascii "old") [("foo", 1001)] 1001
    (by decide) (by decide) rfl (by decide) (by decide) (by decide) (by decide) (by decide)
    ⟨_, _, rfl, rfl, fun _ => rfl⟩

/-! ## C9: a table update that fails -/

/-- C9, as stated, fails: the disk lets the data write of `foo` through and
fails the write into the table file.  `SetExpired("foo", "Hello", 100)`
returns that error and the data file holds `Hello`, but the table file, which
held `{"bar":5000}`, is left empty: `os.Create` had truncated it before the
write failed. -/
theorem C9_counterexample_truncated_table :
    (Set demoLib fullDiskCache "foo" (ascii "Hello")).1 = none ∧
    (SetExpired demoLib fullDiskCache 1000 "foo" (ascii "Hello") 100).result
      = some (some "no space left on device") ∧
    (SetExpired demoLib fullDiskCache 1000 "foo" (ascii "Hello") 100).state.fs.files fooFile
      = some (ascii "Hello") ∧
    fullDiskCache.fs.files tableFile = some (ascii "\x7b\"bar\":5000\x7d") ∧
    (SetExpired demoLib fullDiskCache 1000 "foo" (ascii "Hello") 100).state.fs.files tableFile
      = some [] := by
  decide

/-- C9, amended: if the data write of `SetExpired(k, v, ttl)` succeeds and the
table update reports an error `e` that is not a failed write into the table
file (the stored table does not decode, the new table does not encode, or
`os.Create` fails), then `SetExpired` returns `e` and leaves exactly the state
the data write produced: the data file of `k` holds `v`, and, for a key that
is not stored in the table file, the table file is as it was before the
call. -/
theorem C9_failed_update_keeps_table (L : Lib) (s : State) (now : Int) (k : String)
    (v : Bytes) (ttl : Int) (e : Error)
    (hset : (Set L s k v).1 = none)
    (herr : (setExpiredTime L (Set L s k v).2 k (wrapInt64 (now + ttl))).result
      = some (some e))
    (hw : s.fs.writeErr (buildFilename L s.dc expiredTableName) = none) :
    SetExpired L s now k v ttl = .ret (some e) (Set L s k v).2 ∧
    (Set L s k v).2.fs.files (buildFilename L s.dc k) = some v ∧
    (buildFilename L s.dc k ≠ buildFilename L s.dc expiredTableName →
      (Set L s k v).2.fs.files (buildFilename L s.dc expiredTableName)
        = s.fs.files (buildFilename L s.dc expiredTableName)) := by
  have hd := Set_directory L s k v
  have hw1 : (Set L s k v).2.fs.writeErr
      (buildFilename L (Set L s k v).2.dc expiredTableName) = none := by
    rw [(Set_faults L s k v).2.1, buildFilename_congr L _ s.dc _ hd]; exact hw
  have hst := setExpiredTime_failed_state L (Set L s k v).2 k (wrapInt64 (now + ttl)) hw1
    (by rw [herr]; simp)
  refine ⟨?_, Set_ok_file L s k v hset, fun hfile => Set_files_other L s k v _ (Ne.symm hfile)⟩
  rw [SetExpired_of_set_ok L s now k v ttl hset, Outcome.eq_ret _ _ herr, hst]

/-- C9, amended, on the cache with the cut-off table text: the update fails
to decode the table. -/
theorem C9_failed_update_keeps_table_witness :
    SetExpired demoLib corruptCache 1000 "foo" (ascii "new") 100
      = .ret (some "unexpected end of JSON input")
          (Set demoLib corruptCache "foo" (ascii "new")).2 ∧
    (Set demoLib corruptCache "foo" (ascii "new")).2.fs.files
      (buildFilename demoLib corruptCache.dc "foo") = some (ascii "new") ∧
    (Set demoLib corruptCache "foo" (ascii "new")).2.fs.files
      (buildFilename demoLib corruptCache.dc expiredTableName)
        = corruptCache.fs.files (buildFilename demoLib corruptCache.dc expiredTableName) :=
  have h := C9_failed_update_keeps_table demoLib corruptCache 1000 "foo" (ascii "new") 100
    "unexpected end of JSON input" (by decide) (by decide) (by decide)
  ⟨h.1, h.2.1, h.2.2 (by decide)⟩

/-! ## C10: key isolation -/

/-- What `Get` and `IsExpired` answer for a key depends only on the key's
entry and on the timestamp the table yields for it. -/
theorem observation_congr (L : Lib) (s1 s2 : State) (now : Int) (q : String)
    (hk : getKey L s1 q = getKey L s2 q)
    (hg : getExpiredTime L s1 q = getExpiredTime L s2 q) :
    (Get L s1 now q).result = (Get L s2 now q).result ∧
    IsExpired L s1 now q = IsExpired L s2 now q := by
  have hi : IsExpired L s1 now q = IsExpired L s2 now q := by
    unfold IsExpired; rw [hg]
  exact ⟨by rw [Get_result, Get_result, hk, hi], hi⟩

/-- The table update for `k` and what it leaves alone, when no write into the
table file fails and the codec gives the updated table back. -/
theorem setExpiredTime_frame (L : Lib) (s : State) (k : String) (t : Int)
    (hw : s.fs.writeErr (buildFilename L s.dc expiredTableName) = none)
    (hrt : ∀ T, storedTable L s = some T → RoundTrips L (tablePut T k t)) :
    (setExpiredTime L s k t).state.dc.directory = s.dc.directory ∧
    (∀ p, p ≠ buildFilename L s.dc expiredTableName →
      (setExpiredTime L s k t).state.fs.files p = s.fs.files p) ∧
    ∀ q, q ≠ k → getExpiredTime L (setExpiredTime L s k t).state q = getExpiredTime L s q := by
  by_cases hres : (setExpiredTime L s k t).result = some none
  · cases hT : storedTable L s with
    | none => exact absurd hres (setExpiredTime_of_not_stored L s k t hT).2
    | some T =>
      obtain ⟨hd, hf, T', hT', hq⟩ := setExpiredTime_ok L s T k t hT (hrt T hT) hres
      refine ⟨hd, hf, fun q hqk => ?_⟩
      rw [getExpiredTime_of_stored L _ T' q hT', getExpiredTime_of_stored L s T q hT, hq q]
      simp [hqk]
  · rw [setExpiredTime_failed_state L s k t hw hres]
    exact ⟨rfl, fun _ _ => rfl, fun _ _ => rfl⟩

/-- C10, as stated, fails: `bar` holds `B` with the expiry 5000 and is live at
clock reading 1000.  `SetExpired("foo", "Hello", 100)` at that clock reading
writes `foo`, truncates the table file and fails to write the new table; from
then on the table does not decode, `IsExpired("bar")` is `true` and
`Get("bar")` reports not-found. -/
theorem C10_counterexample_failed_table_write :
    (Get demoLib fullDiskCache 1000 "bar").result = some (ascii "B", true) ∧
    IsExpired demoLib fullDiskCache 1000 "bar" = (false, none) ∧
    (Get demoLib (SetExpired demoLib fullDiskCache 1000 "foo" (ascii "Hello") 100).state
      1000 "bar").result = some ([], false) ∧
    IsExpired demoLib (SetExpired demoLib fullDiskCache 1000 "foo" (ascii "Hello") 100).state
      1000 "bar" = (true, none) := by
  decide

/-- C10, amended: let `k` and `q` be keys with distinct digest filenames, both
distinct from the file of the expiration table, and fix the clock reading.
`Set(k, v)` and `Delete(k)` do not change what `Get(q)` and `IsExpired(q)`
return.  `SetExpired(k, v, ttl)` does not change them either, and keeps the
timestamp recorded for `q`, provided no write into the table file fails
part-way (and the JSON codec gives the updated table back). -/
theorem C10_key_isolation (L : Lib) (s : State) (now : Int) (k q : String)
    (v : Bytes) (ttl : Int)
    (hkq : buildFilename L s.dc k ≠ buildFilename L s.dc q)
    (hkt : buildFilename L s.dc k ≠ buildFilename L s.dc expiredTableName)
    (hqt : buildFilename L s.dc q ≠ buildFilename L s.dc expiredTableName) :
    ((Get L (Set L s k v).2 now q).result = (Get L s now q).result ∧
      IsExpired L (Set L s k v).2 now q = IsExpired L s now q) ∧
    ((Get L (Delete L s k).2 now q).result = (Get L s now q).result ∧
      IsExpired L (Delete L s k).2 now q = IsExpired L s now q) ∧
    (s.fs.writeErr (buildFilename L s.dc expiredTableName) = none →
      (∀ T, storedTable L s = some T → RoundTrips L (tablePut T k (wrapInt64 (now + ttl)))) →
      (Get L (SetExpired L s now k v ttl).state now q).result = (Get L s now q).result ∧
      IsExpired L (SetExpired L s now k v ttl).state now q = IsExpired L s now q ∧
      getExpiredTime L (SetExpired L s now k v ttl).state q = getExpiredTime L s q) := by
  have hne : q ≠ k := by
    intro h; subst h; exact hkq rfl
  -- the data write of `k`
  have hd1 := Set_directory L s k v
  have hq1 : getKey L (Set L s k v).2 q = getKey L s q :=
    getKey_congr L _ s q hd1 (Set_files_other L s k v _ (Ne.symm hkq))
  have ht1 : getKey L (Set L s k v).2 expiredTableName = getKey L s expiredTableName :=
    getKey_congr L _ s _ hd1 (Set_files_other L s k v _ (Ne.symm hkt))
  have hg1 : getExpiredTime L (Set L s k v).2 q = getExpiredTime L s q :=
    getExpiredTime_congr L _ s q ht1
  -- the removal of `k`
  have hdel : (Delete L s k).2.dc = s.dc ∧
      ∀ p, p ≠ buildFilename L s.dc k → (Delete L s k).2.fs.files p = s.fs.files p := by
    unfold Delete
    dsimp only
    split
    · exact ⟨rfl, fun _ _ => rfl⟩
    · split
      · exact ⟨rfl, fun _ _ => rfl⟩
      · refine ⟨rfl, fun p hp => ?_⟩
        simp [FileSystem.erase, hp]
  have hq2 : getKey L (Delete L s k).2 q = getKey L s q :=
    getKey_congr L _ s q (by rw [hdel.1]) (hdel.2 _ (Ne.symm hkq))
  have hg2 : getExpiredTime L (Delete L s k).2 q = getExpiredTime L s q :=
    getExpiredTime_congr L _ s q
      (getKey_congr L _ s _ (by rw [hdel.1]) (hdel.2 _ (Ne.symm hkt)))
  refine ⟨observation_congr L _ s now q hq1 hg1, observation_congr L _ s now q hq2 hg2, ?_⟩
  intro hw hrt
  -- the data write followed by the table update
  have key : getKey L (SetExpired L s now k v ttl).state q = getKey L s q ∧
      getExpiredTime L (SetExpired L s now k v ttl).state q = getExpiredTime L s q := by
    cases hset : (Set L s k v).1 with
    | some e =>
      have hse : SetExpired L s now k v ttl = .ret (some e) (Set L s k v).2 := by
        unfold SetExpired
        rcases hs : Set L s k v with ⟨r, s1⟩
        rw [hs] at hset
        dsimp only at hset
        subst hset
        rfl
      rw [hse]
      exact ⟨hq1, hg1⟩
    | none =>
      rw [SetExpired_of_set_ok L s now k v ttl hset]
      have hw1 : (Set L s k v).2.fs.writeErr
          (buildFilename L (Set L s k v).2.dc expiredTableName) = none := by
        rw [(Set_faults L s k v).2.1, buildFilename_congr L _ s.dc _ hd1]; exact hw
      have hst : storedTable L (Set L s k v).2 = storedTable L s :=
        storedTable_congr L _ s hd1 (Set_files_other L s k v _ (Ne.symm hkt))
      obtain ⟨hd3, hf3, hg3⟩ :=
        setExpiredTime_frame L (Set L s k v).2 k (wrapInt64 (now + ttl)) hw1
          (fun T hT => hrt T (by rw [← hst]; exact hT))
      refine ⟨?_, ?_⟩
      · rw [← hq1]
        apply getKey_congr L _ _ q hd3
        apply hf3
        rw [buildFilename_congr L _ s.dc _ hd1, buildFilename_congr L _ s.dc _ hd1]
        exact hqt
      · rw [hg3 q hne, hg1]
  obtain ⟨h1, h2⟩ := observation_congr L _ s now q key.1 key.2
  exact ⟨h1, h2, key.2⟩

/-- C10, amended, on the cache where `bar` carries the expiry 6000:
`SetExpired("foo", "Hello", 100)` at clock reading 1000 rewrites the table and
`bar` is read as before. -/
theorem C10_key_isolation_witness :
    (Get demoLib (SetExpired demoLib barCache 1000 "foo" (ascii "Hello") 100).state
      1000 "bar").result = some (ascii "B", true) ∧
    IsExpired demoLib (SetExpired demoLib barCache 1000 "foo" (ascii "Hello") 100).state
      1000 "bar" = (false, none) ∧
    getExpiredTime demoLib (SetExpired demoLib barCache 1000 "foo" (ascii "Hello") 100).state
      "bar" = (6000, none) :=
  have h := (C10_key_isolation demoLib barCache 1000 "foo" "bar" (ascii "Hello") 100
    (by decide) (by decide) (by decide)).2.2 (by decide)
    (fun T hT => by
      have hT0 : T = [("bar", 6000)] := (Option.some.inj hT).symm
      subst hT0
      exact ⟨_, _, rfl, rfl, fun _ => rfl⟩)
  ⟨h.1.trans (by decide), h.2.1.trans (by decide), h.2.2.trans (by decide)⟩

end diskache
